import Mathlib

/-!
Shallow embedding of the `httpcache` package of the `ant` repository:
the directive parser (`split`, `nocache`, `nostore`, `maxage`, `expires`,
`date`, `lifetime`, `matches`), the two cache strategies (`RFC7234` and
`Aggressive`), the in-memory storage backend (`Memstore`) and the cache
constructor (`NewCache` with its functional options).

Modelling conventions:
- Go `http.Header` is modelled as an association list of key/value pairs;
  `Header.Get` canonicalises the lookup key (as Go's
  `textproto.CanonicalMIMEHeaderKey` does) and returns the first value
  stored under that exact key, or `""` when absent.
- Go `time.Time` values are modelled as `Int` Unix seconds (the RFC 1123
  format carries no sub-second part); Go `time.Duration` values are `Int`
  nanoseconds, with int64 wraparound (`wrapInt64`) where Go multiplication
  would wrap and saturation (`satDur`) where Go `time.Time.Sub` saturates.
- `time.Parse (time.RFC1123)` is modelled by `parseRFC1123`, which follows
  Go's layout parser for the fixed layout `"Mon, 02 Jan 2006 15:04:05 MST"`:
  case-insensitive day/month names, a fixed 2-digit day, 4-digit year,
  1-2 digit hour, 2-digit minute/second, range validation of day in month,
  hour, minute and second, and a trailing time-zone abbreviation.  The
  abbreviation is resolved to offset zero, which is Go's behaviour when the
  local zone is UTC (an unknown abbreviation yields a fabricated zone with
  offset 0); the `GMT±h` and `±hhmm` numeric forms, which cannot appear in
  output produced with this layout, are not modelled.
-/

namespace httpcache

/-- Two to the sixty-third, the magnitude bound of Go's int64. -/
def int64Half : Int := 9223372036854775808

/-- Interpret an integer as a Go int64, i.e. reduce it modulo 2^64 into
the range [-2^63, 2^63). Go multiplication on `time.Duration` wraps this way. -/
def wrapInt64 (n : Int) : Int :=
  (n + int64Half) % (2 * int64Half) - int64Half

/-- Clamp a duration into the int64 range, as Go's `time.Time.Sub` does on
overflow. -/
def satDur (n : Int) : Int :=
  if n > int64Half - 1 then int64Half - 1
  else if n < -int64Half then -int64Half
  else n

/-- A byte valid in an HTTP header field name (RFC 7230 token characters),
as Go's `httpguts.ValidHeaderFieldName` / `validHeaderFieldByte` accepts. -/
def validHeaderFieldChar (c : Char) : Bool :=
  c.isAlpha || c.isDigit ||
  c = '!' || c = '#' || c = '$' || c = '%' || c = '&' || c = '\x27' ||
  c = '*' || c = '+' || c = '-' || c = '.' || c = '^' || c = '_' ||
  c = '\x60' || c = '|' || c = '~'

/-- The character-level loop of Go's `textproto.CanonicalMIMEHeaderKey`:
uppercase the first letter and every letter following a hyphen, lowercase
the rest. -/
def canonicalChars : Bool → List Char → List Char
  | _, [] => []
  | upper, c :: rest =>
    let c2 :=
      if upper && ('a' ≤ c && c ≤ 'z') then Char.ofNat (c.toNat - 32)
      else if !upper && ('A' ≤ c && c ≤ 'Z') then Char.ofNat (c.toNat + 32)
      else c
    c2 :: canonicalChars (c2 = '-') rest

/-- Go's `http.CanonicalHeaderKey`: canonicalise a header key, returning the
input unchanged when it contains a byte that is not a valid header-field
byte. -/
def canonicalHeaderKey (s : String) : String :=
  if s.data.all validHeaderFieldChar then String.mk (canonicalChars true s.data)
  else s

/-- Model of Go's `http.Header`: an association list from header keys (as
stored, normally already canonical) to the header's first value. -/
def Header := List (String × String)

/-- Go's `http.Header.Get`: canonicalise the key and return the first value
stored under it, or `""` when the header is absent. -/
def Header.get (h : Header) (key : String) : String :=
  match List.find? (fun p => p.1 = canonicalHeaderKey key) h with
  | some p => p.2
  | none => ""

/-- The white-space predicate of Go's `strings.TrimSpace`
(`unicode.IsSpace`). -/
def isSpaceGo (c : Char) : Bool :=
  c = ' ' || c = '\t' || c = '\n' || c = '\x0b' || c = '\x0c' || c = '\r' ||
  c = '\x85' || c = '\xa0' || c = '\u1680' ||
  ('\u2000' ≤ c && c ≤ '\u200a') ||
  c = '\u2028' || c = '\u2029' || c = '\u202f' || c = '\u205f' || c = '\u3000'

/-- Go's `strings.TrimSpace`. -/
def trimSpace (s : String) : String :=
  String.mk (((s.data.dropWhile isSpaceGo).reverse.dropWhile isSpaceGo).reverse)

/-- Go's `strings.Split` for a one-character separator (the package only
ever splits on `","`): cut the character list at every separator, keeping
empty fields, with `[""]` for the empty input. -/
def splitSep (sep : Char) : List Char → List (List Char)
  | [] => [[]]
  | c :: rest =>
    let r := splitSep sep rest
    if c = sep then [] :: r
    else
      match r with
      | h :: t => (c :: h) :: t
      | [] => [[c]]

/-- Go's `strings.ToLower` (ASCII case folding; the package only lowercases
header tokens). -/
def toLowerGo (s : String) : String :=
  String.mk (s.data.map Char.toLower)

/-- `split` from `utils.go`: split `str` by `sep`, trim white space, drop
empty values and lowercase the rest.  The separator is single-character in
every call the package makes; a multi-character separator is not modelled
(the whole string is then one field). -/
def split (str sep : String) : List String :=
  let parts :=
    match sep.data with
    | [c] => splitSep c str.data
    | _ => [str.data]
  parts.filterMap fun v =>
    let v := trimSpace (String.mk v)
    if v = "" then none else some (toLowerGo v)

/-- `nocache` from `utils.go`: true iff the `no-cache` token appears in
`Cache-Control` or in `Pragma`. -/
def nocache (h : Header) : Bool :=
  (split (h.get "Cache-Control") ",").contains "no-cache" ||
  (split (h.get "Pragma") ",").contains "no-cache"

/-- `nostore` from `utils.go`: true iff the `no-store` token appears in
`Cache-Control`. -/
def nostore (h : Header) : Bool :=
  (split (h.get "Cache-Control") ",").contains "no-store"

/-- Splits off a leading `+` or `-` sign, as `strconv.ParseInt` does;
returns (negative?, remaining characters). -/
def splitSign : List Char → Bool × List Char
  | '+' :: r => (false, r)
  | '-' :: r => (true, r)
  | r => (false, r)

/-- True iff the string matches `strconv.ParseInt`'s base-10 syntax:
an optional sign followed by a non-empty run of decimal digits. -/
def intSyntaxOK (s : String) : Bool :=
  let ds := (splitSign s.data).2
  !ds.isEmpty && ds.all Char.isDigit

/-- The numeric value of a run of decimal digits. -/
def digitsVal (ds : List Char) : Nat :=
  ds.foldl (fun a c => a * 10 + (c.toNat - 48)) 0

/-- Go's `strconv.ParseInt(s, 10, 64)` with its error discarded, as
`maxage` does: a syntax error yields 0; a value outside the int64 range
yields the clamped extremum (Go returns `ErrRange` together with the
clamped value). -/
def parseIntClamped (s : String) : Int :=
  if intSyntaxOK s then
    let (neg, ds) := splitSign s.data
    let n : Int := (digitsVal ds : Int)
    if neg then (if int64Half < n then -int64Half else -n)
    else (if int64Half ≤ n then int64Half - 1 else n)
  else 0

/-- The characters of a token strictly after its first `=`, as Go's
`d[j+1:]` with `j = strings.IndexByte(d, '=')`. -/
def afterEq (s : String) : String :=
  String.mk ((s.data.dropWhile (fun c => !(c = '='))).drop 1)

/-- `maxage` from `utils.go`: scan the `Cache-Control` tokens for the first
one that starts with `max-age` and contains `=`; parse what follows the
first `=` as an integer (parse errors ignored), multiply by one second
(wrapping as Go `time.Duration` multiplication does) and report `ok = true`.
When no such token exists, report `(0, false)`. -/
def maxage (h : Header) : Int × Bool :=
  match (split (h.get "Cache-Control") ",").find?
      (fun d => "max-age".data.isPrefixOf d.data && d.data.contains '=') with
  | some d => (wrapInt64 (parseIntClamped (afterEq d) * 1000000000), true)
  | none => (0, false)

/-- One ASCII case-insensitive character comparison, as Go's
`time` package `match` helper folds case for name lookups. -/
def eqFold (a b : Char) : Bool :=
  a.toLower = b.toLower

/-- Case-insensitively strip a given name from the front of the input,
as one step of Go's `time` name `lookup`. -/
def chopName (name : List Char) (cs : List Char) : Option (List Char) :=
  match name, cs with
  | [], rest => some rest
  | _ :: _, [] => none
  | n :: ns, c :: rest => if eqFold n c then chopName ns rest else none

/-- Look a case-insensitive name up in a table, returning its index and the
rest of the input, as Go's `time` `lookup` over short day/month names. -/
def lookupName (names : List String) (cs : List Char) : Option (Nat × List Char) :=
  match names with
  | [] => none
  | n :: ns =>
    match chopName n.data cs with
    | some rest => some (0, rest)
    | none =>
      match lookupName ns cs with
      | some (i, rest) => some (i + 1, rest)
      | none => none

/-- The decimal value of an ASCII digit, `none` otherwise. -/
def digitVal (c : Char) : Option Nat :=
  if c.isDigit then some (c.toNat - 48) else none

/-- Go `getnum` with `fixed = true`: exactly two digits. -/
def num2 : List Char → Option (Nat × List Char)
  | a :: b :: rest =>
    match digitVal a, digitVal b with
    | some x, some y => some (x * 10 + y, rest)
    | _, _ => none
  | _ => none

/-- Go `getnum` with `fixed = false`: one digit, or two when the second
character is also a digit. -/
def num12 : List Char → Option (Nat × List Char)
  | [] => none
  | a :: rest =>
    match digitVal a with
    | none => none
    | some x =>
      match rest with
      | b :: rest2 =>
        match digitVal b with
        | some y => some (x * 10 + y, rest2)
        | none => some (x, rest)
      | [] => some (x, [])

/-- Four fixed digits, for the `2006` year field. -/
def num4 : List Char → Option (Nat × List Char)
  | a :: b :: c :: d :: rest =>
    match digitVal a, digitVal b, digitVal c, digitVal d with
    | some w, some x, some y, some z => some (((w * 10 + x) * 10 + y) * 10 + z, rest)
    | _, _, _, _ => none
  | _ => none

/-- Match one literal character of the layout. -/
def lit (c : Char) : List Char → Option (List Char)
  | x :: rest => if x = c then some rest else none
  | [] => none

/-- Is the year a Gregorian leap year, as Go `isLeap`. -/
def isLeap (y : Nat) : Bool :=
  y % 4 = 0 && (y % 100 ≠ 0 || y % 400 = 0)

/-- Days in a month, as Go `daysIn`. -/
def daysIn (month year : Nat) : Nat :=
  if month = 2 then (if isLeap year then 29 else 28)
  else if month = 4 || month = 6 || month = 9 || month = 11 then 30
  else 31

/-- Days from the Unix epoch to the given civil date
(proleptic Gregorian calendar). -/
def daysFromCivil (y m d : Int) : Int :=
  let y2 := if m ≤ 2 then y - 1 else y
  let era := Int.fdiv y2 400
  let yoe := y2 - era * 400
  let mp := (m + 9) % 12
  let doy := Int.fdiv (153 * mp + 2) 5 + d - 1
  let doe := yoe * 365 + Int.fdiv yoe 4 - Int.fdiv yoe 100 + doy
  era * 146097 + doe - 719468

/-- Accept a trailing time-zone abbreviation, following Go `parseTimeZone`
restricted to abbreviation forms (see the module comment): `UT`, `ChST`,
`MeST`, `WITA`, or three upper-case letters, or four or five upper-case
letters ending in `T`.  The whole remaining input must be consumed. -/
def zoneOK (cs : List Char) : Bool :=
  let s := String.mk cs
  s = "UT" || s = "ChST" || s = "MeST" || s = "WITA" ||
  (cs.all (fun c => 'A' ≤ c && c ≤ 'Z') &&
    (cs.length = 3 ||
     ((cs.length = 4 || cs.length = 5) && cs.getLast? = some 'T')))

/-- The list of short day names Go's RFC 1123 layout accepts. -/
def shortDayNames : List String :=
  ["Sun", "Mon", "Tue", "Wed", "Thu", "Fri", "Sat"]

/-- The list of short month names Go's RFC 1123 layout accepts. -/
def shortMonthNames : List String :=
  ["Jan", "Feb", "Mar", "Apr", "May", "Jun",
   "Jul", "Aug", "Sep", "Oct", "Nov", "Dec"]

/-- Model of Go `time.Parse(time.RFC1123, s)` returning the Unix-seconds
timestamp, under the conventions of the module comment (every accepted
zone abbreviation resolves to offset zero). `none` models a parse error. -/
def parseRFC1123 (s : String) : Option Int :=
  match lookupName shortDayNames s.data with
  | none => none
  | some (_, cs) =>
  match lit ',' cs with
  | none => none
  | some cs =>
  match lit ' ' cs with
  | none => none
  | some cs =>
  match num2 cs with
  | none => none
  | some (day, cs) =>
  match lit ' ' cs with
  | none => none
  | some cs =>
  match lookupName shortMonthNames cs with
  | none => none
  | some (mon0, cs) =>
  match lit ' ' cs with
  | none => none
  | some cs =>
  match num4 cs with
  | none => none
  | some (year, cs) =>
  match lit ' ' cs with
  | none => none
  | some cs =>
  match num12 cs with
  | none => none
  | some (hour, cs) =>
  match lit ':' cs with
  | none => none
  | some cs =>
  match num2 cs with
  | none => none
  | some (minute, cs) =>
  match lit ':' cs with
  | none => none
  | some cs =>
  match num2 cs with
  | none => none
  | some (second, cs) =>
  match lit ' ' cs with
  | none => none
  | some cs =>
  if !zoneOK cs then none else
  if hour ≥ 24 || minute ≥ 60 || second ≥ 60 then none else
  if day < 1 || day > daysIn (mon0 + 1) year then none else
  some (daysFromCivil (year : Int) ((mon0 + 1 : Nat) : Int) (day : Int) * 86400 +
    (hour : Int) * 3600 + (minute : Int) * 60 + (second : Int))

/-- The Unix-seconds timestamp of Go's zero `time.Time`
(January 1, year 1, 00:00:00 UTC). -/
def zeroTimeSec : Int := -62135596800

/-- `expires` from `utils.go`: parse the `Expires` header as an RFC 1123
date; `ok = false` when the header is absent/empty, unparsable, or the zero
time.  `some t` models `(t, true)`. -/
def expires (h : Header) : Option Int :=
  let v := h.get "Expires"
  if v = "" then none
  else match parseRFC1123 v with
    | some t => if t = zeroTimeSec then none else some t
    | none => none

/-- `date` from `utils.go`: parse the `Date` header as an RFC 1123 date;
`ok = false` when the header is absent/empty, unparsable, or the zero time.
`some t` models `(t, true)`. -/
def date (h : Header) : Option Int :=
  let v := h.get "Date"
  if v = "" then none
  else match parseRFC1123 v with
    | some t => if t = zeroTimeSec then none else some t
    | none => none

/-- Go `time.Time.Sub` on two Unix-seconds timestamps: their difference as
a nanoseconds duration, saturating at the int64 bounds. -/
def goSub (t u : Int) : Int :=
  satDur ((t - u) * 1000000000)

/-- Go `time.Since(t)` evaluated when the wall clock reads `nowNs`
nanoseconds since the Unix epoch and `t` is a parsed (second-precision)
timestamp. -/
def goSince (nowNs : Int) (t : Int) : Int :=
  satDur (nowNs - t * 1000000000)

/-- Model of Go `*http.Request`: the fields the cache strategies read. -/
structure Request where
  method : String
  header : Header

/-- Model of Go `*http.Response`: the fields the cache strategies read. -/
structure Response where
  statusCode : Nat
  header : Header
  request : Request

/-- `lifetime` from `utils.go`: the `max-age` duration when the directive is
present, otherwise `Expires − Date` when both headers parse, otherwise
`(-1, false)`. -/
def lifetime (resp : Response) : Int × Bool :=
  let p := maxage resp.header
  if p.2 then (p.1, true)
  else
    match expires resp.header with
    | some exp =>
      match date resp.header with
      | some d => (goSub exp d, true)
      | none => (-1, false)
    | none => (-1, false)

/-- `matches` from `utils.go`: for each token of the *request's* `Vary`
header, canonicalise it and require the request's and the response's values
for that header name to agree. -/
def «matches» (req : Request) (resp : Response) : Bool :=
  (split (req.header.get "Vary") ",").all fun h =>
    let key := canonicalHeaderKey h
    key = "" || req.header.get key = resp.header.get key

/-- The `Freshness` enumeration of `cache.go`: `Fresh`, `Stale`,
`Transparent`. -/
inductive Freshness
  | Fresh
  | Stale
  | Transparent
deriving DecidableEq, Repr

/-- Modelled from the spec: `directivesFrom` is called by `RFC7234.fresh`
but its definition is not part of the provided sources (only this caller
is).  Per the specification's data model, a directive set is "a
case-insensitive, deduplicated collection of lowercase tokens extracted
from a `Cache-Control`/`Pragma` header value (comma-separated,
whitespace-trimmed)", and the no-cache test also consults `Pragma`.  The
set is represented as a deduplicated token list; `directives.has tok` is
list membership. -/
def directivesFrom (h : Header) : List String :=
  (split (h.get "Cache-Control") "," ++ split (h.get "Pragma") ",").dedup

/-- The response status codes the strategies treat as cacheable
(`RFC7234.store` and `Aggressive.store` use the same allow-list switch). -/
def statusCacheable (code : Nat) : Bool :=
  code = 200 || code = 203 || code = 204 || code = 206 ||
  code = 300 || code = 301 ||
  code = 404 || code = 405 || code = 410 || code = 414 ||
  code = 501

/-- `RFC7234.cache` from `rfc7234.go`: the request method is GET or HEAD
and the request does not carry `no-store`. -/
def RFC7234.cache (req : Request) : Bool :=
  (req.method = "GET" || req.method = "HEAD") && !nostore req.header

/-- `RFC7234.store` from `rfc7234.go`: cacheable method, cacheable status
code, no `no-store` on request or response, and an explicit positive
lifetime. -/
def RFC7234.store (resp : Response) : Bool :=
  (resp.request.method = "GET" || resp.request.method = "HEAD") &&
  statusCacheable resp.statusCode &&
  !(nostore resp.request.header || nostore resp.header) &&
  ((lifetime resp).2 && decide (0 < (lifetime resp).1))

/-- `RFC7234.fresh` from `rfc7234.go`: `Transparent` on a selecting-header
mismatch, `Stale` when request or response carries `no-cache`, `Fresh` on a
positive explicit lifetime, `Stale` otherwise. -/
def RFC7234.fresh (resp : Response) : Freshness :=
  if !«matches» resp.request resp then .Transparent
  else if (directivesFrom resp.request.header).contains "no-cache" ||
      (directivesFrom resp.header).contains "no-cache" then .Stale
  else if (lifetime resp).2 && decide (0 < (lifetime resp).1) then .Fresh
  else .Stale

/-- `RFC7234.fresh` evaluated at the wall-clock instant `nowNs`: the Go
method reads no clock, so the instant is ignored (contrast
`Aggressive.fresh`, which reads `time.Since`). -/
def RFC7234.freshAt (_nowNs : Int) (resp : Response) : Freshness :=
  RFC7234.fresh resp

/-- The `Aggressive` strategy struct of `aggressive.go`: a configurable
lifetime in nanoseconds. -/
structure Aggressive where
  Lifetime : Int
deriving DecidableEq, Repr

/-- `Aggressive.cache`: the request method is GET or HEAD; directives are
ignored. -/
def Aggressive.cache (_ : Aggressive) (req : Request) : Bool :=
  req.method = "GET" || req.method = "HEAD"

/-- `Aggressive.store`: cacheable method and cacheable status code;
`no-store` and lifetimes are ignored. -/
def Aggressive.store (_ : Aggressive) (resp : Response) : Bool :=
  (resp.request.method = "GET" || resp.request.method = "HEAD") &&
  statusCacheable resp.statusCode

/-- `Aggressive.lifetime`: the configured duration when positive, otherwise
24 hours. -/
def Aggressive.lifetime (a : Aggressive) : Int :=
  if a.Lifetime > 0 then a.Lifetime else 24 * 60 * 60 * 1000000000

/-- `Aggressive.fresh` evaluated when the wall clock reads `nowNs`:
`Fresh` iff the `Date` header parses (to a non-zero time) and the elapsed
time since it is below the strategy's lifetime; `Transparent` otherwise. -/
def Aggressive.fresh (a : Aggressive) (nowNs : Int) (resp : Response) : Freshness :=
  match date resp.header with
  | some d => if goSince nowNs d < a.lifetime then .Fresh else .Transparent
  | none => .Transparent

/-- `Memstore` from `memstore.go`: the reference in-memory storage backend.
The `sync.Map` is modelled as an association list where the most recent
`Store` for a key shadows older entries. -/
structure Memstore where
  c : List (Nat × List Nat)

/-- `Memstore.Store`: record the value under the key; the returned error is
always nil (`none`). -/
def Memstore.Store (m : Memstore) (key : Nat) (value : List Nat) :
    Memstore × Option String :=
  (⟨(key, value) :: m.c⟩, none)

/-- `Memstore.Load`: the stored value and a nil error when the key is
present; a nil (`none`) byte slice and a nil error when it is not. -/
def Memstore.Load (m : Memstore) (key : Nat) :
    Option (List Nat) × Option String :=
  match m.c.find? (fun p => p.1 = key) with
  | some p => (some p.2, none)
  | none => (none, none)

/-- The strategy collaborator a cache can be configured with; the zero
configuration uses `RFC7234{}`.  `customStrategy` stands for any other
conforming implementation. -/
inductive StrategyChoice
  | rfc7234Strategy
  | aggressiveStrategy (lifetimeNs : Int)
  | customStrategy (id : Nat)
deriving DecidableEq, Repr

/-- The storage collaborator; the default is an empty `Memstore`. -/
inductive StorageChoice
  | memstoreStorage (m : Memstore)
  | customStorage (id : Nat)

/-- The client collaborator; the default is `http.DefaultClient`. -/
inductive ClientChoice
  | defaultClient
  | customClient (id : Nat)
deriving DecidableEq, Repr

/-- The `Cache` struct of `cache.go`: a storage, a strategy and a client. -/
structure Cache where
  storage : StorageChoice
  strategy : StrategyChoice
  client : ClientChoice

/-- An `Option` functional option of `cache.go`: it mutates the cache under
construction or reports an error.  A Go `nil` interface argument is
modelled as `Option.none` in the constructors below. -/
def CacheOpt := Cache → Except String Cache

/-- `WithStrategy`: set the strategy; an explicit nil is a construction
error. -/
def WithStrategy (s : Option StrategyChoice) : CacheOpt := fun c =>
  match s with
  | none => .error "httpcache: strategy must be non-nil"
  | some s => .ok { c with strategy := s }

/-- `WithStorage`: set the storage; an explicit nil is a construction
error. -/
def WithStorage (s : Option StorageChoice) : CacheOpt := fun c =>
  match s with
  | none => .error "httpcache: storage must be non-nil"
  | some s => .ok { c with storage := s }

/-- `WithClient`: set the client; an explicit nil is a construction
error. -/
def WithClient (client : Option ClientChoice) : CacheOpt := fun c =>
  match client with
  | none => .error "httpcache: client must be non-nil"
  | some cl => .ok { c with client := cl }

/-- The option-application loop of `NewCache`: apply each option in order,
stopping at the first error. -/
def applyOpts : List CacheOpt → Cache → Except String Cache
  | [], c => .ok c
  | o :: rest, c =>
    match o c with
    | .error e => .error e
    | .ok c2 => applyOpts rest c2

/-- `NewCache` from `cache.go`: start from the defaults (`RFC7234{}`, an
empty `Memstore`, `http.DefaultClient`) and apply the options in the order
supplied. -/
def NewCache (opts : List CacheOpt) : Except String Cache :=
  applyOpts opts
    { storage := .memstoreStorage ⟨[]⟩
      strategy := .rfc7234Strategy
      client := .defaultClient }

/-- A GET response carrying `Cache-Control: max-age=5`. -/
def respMaxAge5 : Response :=
  { statusCode := 200
    header := [("Cache-Control", "max-age=5")]
    request := { method := "GET", header := [] } }

/-- A GET response carrying `Cache-Control: no-cache, max-age=5`. -/
def respNoCacheMaxAge : Response :=
  { statusCode := 200
    header := [("Cache-Control", "no-cache, max-age=5")]
    request := { method := "GET", header := [] } }

/-- The `vary mismatch` response of `rfc7234_test.go`: the request carries
`Vary: Accept-Language` and `Accept-Language: en-US`; the response has no
headers. -/
def respVaryMismatch : Response :=
  { statusCode := 200
    header := []
    request :=
      { method := "GET"
        header := [("Vary", "Accept-Language"), ("Accept-Language", "en-US")] } }

/-- A response whose `Vary` is on the *response* side: the response lists
`Vary: Accept` and records no `Accept` value, while the request presents
`Accept: application/json` and no `Vary` of its own. -/
def respVaryOnResponse : Response :=
  { statusCode := 200
    header := [("Vary", "Accept"), ("Cache-Control", "max-age=5")]
    request := { method := "GET", header := [("Accept", "application/json")] } }

/-- A GET response with a long-past `Date` and `Cache-Control: max-age=5`. -/
def respOldDateMaxAge : Response :=
  { statusCode := 200
    header := [("Date", "Mon, 02 Jan 2006 15:04:05 MST"),
               ("Cache-Control", "max-age=5")]
    request := { method := "GET", header := [] } }

/-- A GET response with a parsable `Date` header and no other metadata. -/
def respDated : Response :=
  { statusCode := 200
    header := [("Date", "Mon, 02 Jan 2006 15:04:05 MST")]
    request := { method := "GET", header := [] } }

/-- Fold a list of (key, value) store operations over a `Memstore`. -/
def storeAll (ops : List (Nat × List Nat)) (m : Memstore) : Memstore :=
  ops.foldl (fun m p => (m.Store p.1 p.2).1) m

/-- `Memstore.Load` misses exactly when no pair of the underlying map has
the key. -/
theorem memstore_load_eq_none (m : Memstore) (k : Nat)
    (h : ∀ p ∈ m.c, p.1 ≠ k) : m.Load k = (none, none) := by
  unfold Memstore.Load
  rw [List.find?_eq_none.mpr]
  intro p hp
  simpa using h p hp

/-- Storing under keys other than `k` preserves a miss on `k`. -/
theorem storeAll_miss (k : Nat) :
    ∀ (ops : List (Nat × List Nat)) (m : Memstore),
      (∀ p ∈ ops, p.1 ≠ k) → (∀ p ∈ m.c, p.1 ≠ k) →
      ∀ p ∈ (storeAll ops m).c, p.1 ≠ k := by
  intro ops
  induction ops with
  | nil => intro m _ hm; simpa [storeAll] using hm
  | cons q rest ih =>
    intro m hops hm
    have hq : q.1 ≠ k := hops q (by simp)
    have hrest : ∀ p ∈ rest, p.1 ≠ k := fun p hp => hops p (by simp [hp])
    have : storeAll (q :: rest) m = storeAll rest ⟨(q.1, q.2) :: m.c⟩ := by
      simp [storeAll, Memstore.Store]
    rw [this]
    exact ih _ hrest (by
      intro p hp
      rcases List.mem_cons.mp hp with h1 | h2
      · simpa [h1] using hq
      · exact hm p h2)

/-- C9: for every key on which no store has been performed, the reference
in-memory storage backend's `Load` returns an absent (`none`) byte slice
together with a nil (`none`) error; a missing entry is never reported as an
error. -/
theorem memstore_load_missing (ops : List (Nat × List Nat)) (k : Nat)
    (h : ∀ p ∈ ops, p.1 ≠ k) :
    Memstore.Load (storeAll ops ⟨[]⟩) k = (none, none) :=
  memstore_load_eq_none _ _ (storeAll_miss k ops ⟨[]⟩ h (by simp))

/-- Witness for C9 at a concrete input: keys 1 and 2 are stored, key 3 is
loaded. -/
theorem memstore_load_missing_witness :
    Memstore.Load (storeAll [(1, [7]), (2, [9])] ⟨[]⟩) 3 = (none, none) :=
  memstore_load_missing [(1, [7]), (2, [9])] 3 (by decide)

/-- C2: the standards-compliant strategy's `store` is true iff the request
method is GET or HEAD, the status code is in the allow-list, neither the
request nor the response headers carry `no-store`, and `lifetime` is ok
with a strictly positive duration. -/
theorem rfc7234_store_iff (resp : Response) :
    RFC7234.store resp = true ↔
      ((resp.request.method = "GET" ∨ resp.request.method = "HEAD") ∧
       resp.statusCode ∈ [200, 203, 204, 206, 300, 301, 404, 405, 410, 414, 501] ∧
       nostore resp.request.header = false ∧
       nostore resp.header = false ∧
       (lifetime resp).2 = true ∧
       0 < (lifetime resp).1) := by
  simp only [RFC7234.store, statusCacheable, Bool.and_eq_true, Bool.or_eq_true,
    decide_eq_true_eq, Bool.not_eq_true', Bool.or_eq_false_iff,
    List.mem_cons, List.not_mem_nil, or_false, and_assoc, or_assoc]

/-- C7: requests whose method is neither GET nor HEAD are not cacheable
under either strategy; the standards-compliant `cache` is exactly
"GET/HEAD and no `no-store`"; the aggressive `cache` depends only on the
method, never on the headers. -/
theorem cache_method_gate (a : Aggressive) (req : Request) :
    (¬(req.method = "GET" ∨ req.method = "HEAD") →
      RFC7234.cache req = false ∧ Aggressive.cache a req = false) ∧
    (RFC7234.cache req = true ↔
      ((req.method = "GET" ∨ req.method = "HEAD") ∧
        nostore req.header = false)) ∧
    (∀ h2 : Header, Aggressive.cache a { req with header := h2 } =
      Aggressive.cache a req) := by
  refine ⟨?_, ?_, ?_⟩
  · intro hm
    simp only [RFC7234.cache, Aggressive.cache, Bool.and_eq_true, Bool.or_eq_true,
      decide_eq_true_eq] at *
    constructor
    · rw [Bool.eq_false_iff]
      intro hc
      rcases Bool.and_eq_true .. |>.mp hc with ⟨ho, _⟩
      exact hm (by simpa using ho)
    · rw [Bool.eq_false_iff]
      intro hc
      exact hm (by simpa using hc)
  · simp [RFC7234.cache, Bool.and_eq_true, Bool.or_eq_true, decide_eq_true_eq,
      Bool.not_eq_true']
  · intro h2
    simp [Aggressive.cache]

/-- Witness for C7 at a concrete input: a POST request is cacheable under
neither strategy. -/
theorem cache_method_gate_witness :
    RFC7234.cache { method := "POST", header := [] } = false ∧
    Aggressive.cache ⟨0⟩ { method := "POST", header := [] } = false :=
  (cache_method_gate ⟨0⟩ { method := "POST", header := [] }).1 (by decide)

/-- C8: constructing with no options succeeds with the defaults (RFC 7234
strategy, empty `Memstore`, the standard HTTP client); an option supplying
an explicitly nil strategy, storage or client is a construction-time
error; options are applied in order, so a later option targeting the same
field overrides an earlier one. -/
theorem newCache_options :
    NewCache [] = .ok { storage := .memstoreStorage ⟨[]⟩
                        strategy := .rfc7234Strategy
                        client := .defaultClient } ∧
    NewCache [WithStrategy none] = .error "httpcache: strategy must be non-nil" ∧
    NewCache [WithStorage none] = .error "httpcache: storage must be non-nil" ∧
    NewCache [WithClient none] = .error "httpcache: client must be non-nil" ∧
    ∀ (s1 s2 : StrategyChoice) (st1 st2 : StorageChoice) (cl1 cl2 : ClientChoice),
      NewCache [WithStrategy (some s1), WithStorage (some st1), WithClient (some cl1),
                WithStrategy (some s2), WithStorage (some st2), WithClient (some cl2)] =
        .ok { storage := st2, strategy := s2, client := cl2 } := by
  refine ⟨rfl, rfl, rfl, rfl, ?_⟩
  intro s1 s2 st1 st2 cl1 cl2
  rfl

/-- C3: when the selecting headers match, `RFC7234.fresh` is `Stale`
whenever the request or the stored response carries `no-cache` (even when
the lifetime is positive); when neither does, it is `Fresh` exactly when
`lifetime` is ok with a positive duration and `Stale` otherwise. -/
theorem rfc7234_fresh_nocache (resp : Response)
    (hm : «matches» resp.request resp = true) :
    (((directivesFrom resp.request.header).contains "no-cache" = true ∨
      (directivesFrom resp.header).contains "no-cache" = true) →
      RFC7234.fresh resp = .Stale) ∧
    ((directivesFrom resp.request.header).contains "no-cache" = false →
     (directivesFrom resp.header).contains "no-cache" = false →
      RFC7234.fresh resp =
        if (lifetime resp).2 = true ∧ 0 < (lifetime resp).1
        then .Fresh else .Stale) := by
  constructor
  · intro hnc
    have hcond : ((directivesFrom resp.request.header).contains "no-cache" ||
        (directivesFrom resp.header).contains "no-cache") = true := by
      rcases hnc with h | h <;> rw [h] <;> simp
    unfold RFC7234.fresh
    rw [hm, hcond]
    rfl
  · intro h1 h2
    unfold RFC7234.fresh
    rw [hm, h1, h2]
    simp only [Bool.not_true, Bool.false_eq_true, if_false, Bool.or_self,
      Bool.and_eq_true, decide_eq_true_eq]

/-- Witness for C3 at a concrete input: a stored response carrying
`Cache-Control: no-cache, max-age=5` (a positive lifetime) is `Stale`. -/
theorem rfc7234_fresh_nocache_witness :
    RFC7234.fresh respNoCacheMaxAge = .Stale :=
  (rfc7234_fresh_nocache respNoCacheMaxAge (by decide)).1 (Or.inr (by decide))

/-- C4: `lifetime` is ok iff `max-age` is present or both `Expires` and
`Date` parse; its value is the `max-age` duration in the first case and
`Expires − Date` in the second; in all other cases it is not ok. -/
theorem lifetime_spec (resp : Response) :
    ((lifetime resp).2 = true ↔
      ((maxage resp.header).2 = true ∨
       ((expires resp.header).isSome ∧ (date resp.header).isSome))) ∧
    ((maxage resp.header).2 = true →
      lifetime resp = ((maxage resp.header).1, true)) ∧
    ((maxage resp.header).2 = false →
      ∀ e d, expires resp.header = some e → date resp.header = some d →
        lifetime resp = (goSub e d, true)) ∧
    ((maxage resp.header).2 = false →
      (expires resp.header = none ∨ date resp.header = none) →
      (lifetime resp).2 = false) := by
  cases hm : (maxage resp.header).2 with
  | false =>
    cases he : expires resp.header with
    | none => simp [lifetime, hm, he]
    | some e =>
      cases hd : date resp.header with
      | none => simp [lifetime, hm, he, hd]
      | some d => simp [lifetime, hm, he, hd]
  | true => simp [lifetime, hm]

/-- Witness for C4 at a concrete input: `Cache-Control: max-age=5` gives a
five-second lifetime. -/
theorem lifetime_spec_witness :
    lifetime respMaxAge5 = ((maxage respMaxAge5.header).1, true) :=
  (lifetime_spec respMaxAge5).2.1 (by decide)

/-- C5: `maxage` reports `ok = false` when no `max-age` directive appears
among the `Cache-Control` tokens; when the directive the code selects (the
first token starting with `max-age` and containing `=`) has a payload that
is not a syntactically valid integer, it degrades to a zero duration with
`ok = true`; whenever such a directive is selected, `ok = true` — a parse
failure is never surfaced. -/
theorem maxage_spec (h : Header) :
    ((∀ d ∈ split (Header.get h "Cache-Control") ",",
        "max-age".data.isPrefixOf d.data = false) →
      maxage h = (0, false)) ∧
    (∀ d, (split (Header.get h "Cache-Control") ",").find?
        (fun t => "max-age".data.isPrefixOf t.data && t.data.contains '=') = some d →
      ((intSyntaxOK (afterEq d) = false → maxage h = (0, true)) ∧
       (maxage h).2 = true)) := by
  constructor
  · intro hno
    have hnone : (split (Header.get h "Cache-Control") ",").find?
        (fun t => "max-age".data.isPrefixOf t.data && t.data.contains '=') = none :=
      List.find?_eq_none.mpr (fun t ht => by simp [hno t ht])
    unfold maxage
    rw [hnone]
  · intro d hd
    have hmx : maxage h =
        (wrapInt64 (parseIntClamped (afterEq d) * 1000000000), true) := by
      unfold maxage
      rw [hd]
    refine ⟨?_, by rw [hmx]⟩
    intro hbad
    rw [hmx]
    simp only [parseIntClamped, hbad, Bool.false_eq_true, if_false, Int.zero_mul]
    decide

/-- Witness for C5 at concrete inputs: a non-numeric payload gives
`(0, true)`; a `Cache-Control` without any `max-age` token gives
`(0, false)`. -/
theorem maxage_spec_witness :
    maxage [("Cache-Control", "max-age=abc")] = (0, true) ∧
    maxage [("Cache-Control", "no-store")] = (0, false) :=
  ⟨((maxage_spec [("Cache-Control", "max-age=abc")]).2 "max-age=abc"
      (by decide)).1 (by decide),
   (maxage_spec [("Cache-Control", "no-store")]).1 (by decide)⟩

/-- C6: the aggressive strategy's `fresh` is `Fresh` iff the response's
`Date` header parses and the elapsed time since it is strictly below the
strategy's lifetime; it is never `Stale`; the effective lifetime is the
configured duration when positive and 24 hours otherwise. -/
theorem aggressive_fresh_spec (a : Aggressive) (nowNs : Int) (resp : Response) :
    (Aggressive.fresh a nowNs resp = .Fresh ↔
      ∃ d, date resp.header = some d ∧ goSince nowNs d < a.lifetime) ∧
    Aggressive.fresh a nowNs resp ≠ .Stale ∧
    (0 < a.Lifetime → a.lifetime = a.Lifetime) ∧
    (a.Lifetime ≤ 0 → a.lifetime = 24 * 60 * 60 * 1000000000) := by
  refine ⟨?_, ?_, ?_, ?_⟩
  · cases hd : date resp.header with
    | none => simp [Aggressive.fresh, hd]
    | some d =>
      by_cases hlt : goSince nowNs d < a.lifetime <;>
        simp [Aggressive.fresh, hd, hlt]
  · cases hd : date resp.header with
    | none => simp [Aggressive.fresh, hd]
    | some d =>
      by_cases hlt : goSince nowNs d < a.lifetime <;>
        simp [Aggressive.fresh, hd, hlt]
  · intro hpos
    unfold Aggressive.lifetime
    rw [if_pos (by omega)]
  · intro hnp
    unfold Aggressive.lifetime
    rw [if_neg (by omega)]

/-- Witness for C6 at a concrete input: with the default lifetime (the
configured value 0 is non-positive, so 24 hours apply), a response dated
two hours ago is `Fresh`. -/
theorem aggressive_fresh_spec_witness :
    Aggressive.lifetime ⟨0⟩ = 24 * 60 * 60 * 1000000000 ∧
    Aggressive.fresh ⟨0⟩ ((1136214245 + 7200) * 1000000000) respDated = .Fresh :=
  ⟨(aggressive_fresh_spec ⟨0⟩ 0 respDated).2.2.2 (by decide),
   ((aggressive_fresh_spec ⟨0⟩ ((1136214245 + 7200) * 1000000000) respDated).1).mpr
     ⟨1136214245, by decide, by decide⟩⟩

/-- C10: the standards-compliant `fresh` verdict reads no clock — its
evaluation at any two wall-clock instants is identical — and a response
with a positive `max-age` (matching selecting headers, no `no-cache`)
is `Fresh` regardless of its `Date`, i.e. of how much time has elapsed. -/
theorem rfc7234_fresh_clockfree (t1 t2 : Int) (resp : Response) :
    RFC7234.freshAt t1 resp = RFC7234.freshAt t2 resp ∧
    («matches» resp.request resp = true →
     (directivesFrom resp.request.header).contains "no-cache" = false →
     (directivesFrom resp.header).contains "no-cache" = false →
     (maxage resp.header).2 = true →
     0 < (maxage resp.header).1 →
     RFC7234.fresh resp = .Fresh) := by
  refine ⟨rfl, ?_⟩
  intro hm h1 h2 hok hpos
  have hl : lifetime resp = ((maxage resp.header).1, true) := by
    simp [lifetime, hok]
  unfold RFC7234.fresh
  rw [hm, h1, h2, hl]
  simp [hpos]

/-- Witness for C10 at a concrete input: a response dated in 2006 with
`max-age=5` is still `Fresh`, whatever the clock reads. -/
theorem rfc7234_fresh_clockfree_witness :
    RFC7234.fresh respOldDateMaxAge = .Fresh :=
  (rfc7234_fresh_clockfree 0 1136214245000000000 respOldDateMaxAge).2
    (by decide) (by decide) (by decide) (by decide) (by decide)

/-- C1 counterexample: a stored response whose own `Vary` value lists
`Accept`, recorded without an `Accept` value, while the current request
presents a different `Accept` — the claim predicts `Transparent`, but the
code reads `Vary` from the request (which has none) and returns `Fresh`
from the positive `max-age`. -/
theorem rfc7234_vary_counterexample :
    split (Header.get respVaryOnResponse.header "Vary") "," = ["accept"] ∧
    Header.get respVaryOnResponse.request.header "Accept" ≠
      Header.get respVaryOnResponse.header "Accept" ∧
    RFC7234.fresh respVaryOnResponse = .Fresh := by
  refine ⟨by decide, by decide, by decide⟩

/-- C1 (amended): the selecting-headers check takes the header names from
the *request's* `Vary` value; a difference between the request's and the
response's value for any of those names makes `fresh` return
`Transparent`, and an empty or absent request `Vary` trivially matches. -/
theorem rfc7234_vary_request_side (resp : Response) :
    ((∃ t ∈ split (Header.get resp.request.header "Vary") ",",
        canonicalHeaderKey t ≠ "" ∧
        Header.get resp.request.header (canonicalHeaderKey t) ≠
          Header.get resp.header (canonicalHeaderKey t)) →
      RFC7234.fresh resp = .Transparent) ∧
    (Header.get resp.request.header "Vary" = "" →
      «matches» resp.request resp = true) := by
  constructor
  · rintro ⟨t, ht, hk, hne⟩
    have hmf : «matches» resp.request resp = false := by
      rw [Bool.eq_false_iff]
      intro hall
      unfold «matches» at hall
      rw [List.all_eq_true] at hall
      have := hall t ht
      simp only [Bool.or_eq_true, decide_eq_true_eq] at this
      rcases this with h | h
      · exact hk h
      · exact hne h
    unfold RFC7234.fresh
    rw [hmf]
    rfl
  · intro h
    unfold «matches»
    rw [h]
    have hempty : split "" "," = [] := by decide
    rw [hempty]
    rfl

/-- Witness for the amended C1 at a concrete input (the repository's own
`vary mismatch` test case): the request carries `Vary: Accept-Language`
with `Accept-Language: en-US`, the response records nothing — the verdict
is `Transparent`. -/
theorem rfc7234_vary_request_side_witness :
    RFC7234.fresh respVaryMismatch = .Transparent :=
  (rfc7234_vary_request_side respVaryMismatch).1
    ⟨"accept-language", by decide, by decide, by decide⟩

end httpcache
